import Mathlib

/-!
Shallow embedding of the `ronin-indexer` program (sources `src/main.rs`,
`src/cli_args.rs`, `src/mongo.rs`, `src/ronin.rs`) together with proofs
settling the specification claims.

Modelling conventions:
* Rust `u64`/`U256`/`H160`/`H256` values are modelled as `Nat`; 256-bit event
  words are plain `Nat`s and address extraction truncates with `% 2^160`,
  exactly as the ABI decoder takes the low 20 bytes of a word.
* Rust strings fed to the SHA-256 hasher are modelled as their byte lists
  (`&str::as_bytes`); all strings produced by the program are ASCII, so a
  string's byte list is `s.data.map Char.toNat`.
* The source compares topic/address values after serializing them to
  lowercase `0x…` hex strings; that serialization is injective, so the
  embedding compares the underlying numeric values directly.
* Fallible code is `Except String α`: `.error` models a Rust panic
  (`unwrap` / `expect` / out-of-bounds indexing), carrying the panic text.
* Functions the source writes as loops over unbounded data use structural
  fuel that provably suffices on the stated domains.
-/

set_option maxRecDepth 8000

namespace RoninIndexer

/-! ### Lowercase hex rendering (Rust `{:x}` formatting and serde `0x…` output) -/

/-- Accumulate the base-16 digits of `w` (most significant first); fuel-driven
so that the kernel can evaluate it.  `w + 1` units of fuel always suffice. -/
def hexDigitsAux : Nat → Nat → List Char → List Char
  | 0, _, acc => acc
  | fuel + 1, w, acc =>
    if w = 0 then acc
    else hexDigitsAux fuel (w / 16) (Nat.digitChar (w % 16) :: acc)

/-- `{:x}` of an unpadded unsigned integer: no leading zeros, `"0"` for zero
(primitive-types `U256` lower-hex / serde serialization body). -/
def hexNoPadChars (w : Nat) : List Char :=
  if w = 0 then ['0'] else hexDigitsAux (w + 1) w []

/-- `{:x}` of a fixed-width value: zero-padded to `n` hex digits
(primitive-types `H160`/`H256` lower-hex prints every byte as `{:02x}`). -/
def hexPadChars (n w : Nat) : List Char :=
  let ds := if w = 0 then [] else hexDigitsAux (w + 1) w []
  List.replicate (n - ds.length) '0' ++ ds

/-- serde/web3 `to_string` of an `H160` address (quotes stripped). -/
def toStringAddr (a : Nat) : String := "0x" ++ String.mk (hexPadChars 40 a)

/-- serde/web3 `to_string` of an `H256` word (quotes stripped). -/
def toStringWord (w : Nat) : String := "0x" ++ String.mk (hexPadChars 64 w)

/-- serde/web3 `to_string` of a `U256` (quotes stripped): `0x` + unpadded hex. -/
def toStringU256 (w : Nat) : String := "0x" ++ String.mk (hexNoPadChars w)

/-- serde/web3 `to_string` of an `Option<H160>`: `None` serializes as `null`. -/
def toStringOptAddr : Option Nat → String
  | none => "null"
  | some a => toStringAddr a

/-- serde/web3 `to_string` of an `Option<H256>`: `None` serializes as `null`. -/
def toStringOptWord : Option Nat → String
  | none => "null"
  | some w => toStringWord w

/-- serde/web3 `to_string` of an `Option<U256>`: `None` serializes as `null`. -/
def toStringOptU256 : Option Nat → String
  | none => "null"
  | some w => toStringU256 w

/-- UTF-8 bytes of an ASCII string (every string the program hashes is ASCII,
where UTF-8 coincides with the code points). -/
def asciiBytes (s : String) : List Nat := s.data.map (fun c => c.toNat)

/-! ### SHA-256 (the `sha2` crate's `Sha256`), byte-level, over `Nat` words -/

def rotr32 (n x : Nat) : Nat := x / 2 ^ n + x % 2 ^ n * 2 ^ (32 - n)

def shr32 (n x : Nat) : Nat := x / 2 ^ n

def bigSigma0 (x : Nat) : Nat := Nat.xor (rotr32 2 x) (Nat.xor (rotr32 13 x) (rotr32 22 x))

def bigSigma1 (x : Nat) : Nat := Nat.xor (rotr32 6 x) (Nat.xor (rotr32 11 x) (rotr32 25 x))

def smallSigma0 (x : Nat) : Nat := Nat.xor (rotr32 7 x) (Nat.xor (rotr32 18 x) (shr32 3 x))

def smallSigma1 (x : Nat) : Nat := Nat.xor (rotr32 17 x) (Nat.xor (rotr32 19 x) (shr32 10 x))

def chNat (x y z : Nat) : Nat := Nat.xor (Nat.land x y) (Nat.land (Nat.xor x 4294967295) z)

def majNat (x y z : Nat) : Nat :=
  Nat.xor (Nat.land x y) (Nat.xor (Nat.land x z) (Nat.land y z))

def sha256K : List Nat :=
  [1116352408, 1899447441, 3049323471, 3921009573, 961987163, 1508970993,
   2453635748, 2870763221, 3624381080, 310598401, 607225278, 1426881987,
   1925078388, 2162078206, 2614888103, 3248222580, 3835390401, 4022224774,
   264347078, 604807628, 770255983, 1249150122, 1555081692, 1996064986,
   2554220882, 2821834349, 2952996808, 3210313671, 3336571891, 3584528711,
   113926993, 338241895, 666307205, 773529912, 1294757372, 1396182291,
   1695183700, 1986661051, 2177026350, 2456956037, 2730485921, 2820302411,
   3259730800, 3345764771, 3516065817, 3600352804, 4094571909, 275423344,
   430227734, 506948616, 659060556, 883997877, 958139571, 1322822218,
   1537002063, 1747873779, 1955562222, 2024104815, 2227730452, 2361852424,
   2428436474, 2756734187, 3204031479, 3329325298]

def sha256H0 : List Nat :=
  [1779033703, 3144134277, 1013904242, 2773480762, 1359893119, 2600822924,
   528734635, 1541459225]

/-- Big-endian 4-byte groups to 32-bit words. -/
def bytesToWords : List Nat → List Nat
  | b0 :: b1 :: b2 :: b3 :: rest => (((b0 * 256 + b1) * 256 + b2) * 256 + b3) :: bytesToWords rest
  | _ => []

def nextScheduleWord (ws : List Nat) : Nat :=
  let n := ws.length
  (ws.getD (n - 16) 0 + smallSigma0 (ws.getD (n - 15) 0) + ws.getD (n - 7) 0
      + smallSigma1 (ws.getD (n - 2) 0)) % 4294967296

def extendSchedule : Nat → List Nat → List Nat
  | 0, ws => ws
  | f + 1, ws => extendSchedule f (ws ++ [nextScheduleWord ws])

def sha256Round (st : List Nat) (kw : Nat × Nat) : List Nat :=
  match st with
  | [a, b, c, d, e, f, g, h] =>
    let t1 := (h + bigSigma1 e + chNat e f g + kw.1 + kw.2) % 4294967296
    let t2 := (bigSigma0 a + majNat a b c) % 4294967296
    [(t1 + t2) % 4294967296, a, b, c, (d + t1) % 4294967296, e, f, g]
  | other => other

def sha256Compress (h : List Nat) (block : List Nat) : List Nat :=
  let ws := extendSchedule 48 (bytesToWords block)
  let st := (sha256K.zip ws).foldl sha256Round h
  (h.zip st).map (fun p => (p.1 + p.2) % 4294967296)

/-- Split into 64-byte blocks; fuel-driven (`len + 1` fuel always suffices). -/
def splitBlocks : Nat → List Nat → List (List Nat)
  | 0, _ => []
  | _, [] => []
  | f + 1, l => l.take 64 :: splitBlocks f (l.drop 64)

/-- FIPS 180-4 padding: `0x80`, zeros, 8-byte big-endian bit length. -/
def padMessage (msg : List Nat) : List Nat :=
  let bitLen := msg.length * 8
  msg ++ [128] ++ List.replicate ((64 - (msg.length + 9) % 64) % 64) 0
      ++ (List.range 8).map (fun j => bitLen / 2 ^ (8 * (7 - j)) % 256)

/-- The eight 32-bit state words of the SHA-256 digest of `msg` (a byte list). -/
def sha256Words (msg : List Nat) : List Nat :=
  let padded := padMessage msg
  (splitBlocks (padded.length + 1) padded).foldl sha256Compress sha256H0

/-- Lowercase-hex SHA-256 digest of a byte list: Rust's
`format!("{:x}", hasher.finalize())`, each digest byte as two hex digits. -/
def sha256HexOfBytes (msg : List Nat) : String :=
  String.mk ((sha256Words msg).foldr (fun w acc => hexPadChars 8 w ++ acc) [])

/-- The spec's `sha256_hex` applied to the already-concatenated input bytes. -/
def sha256_hex (bytes : List Nat) : String := sha256HexOfBytes bytes

/-! ### The incremental hasher as used by `get_transfer_id`
(`src/mongo.rs:341-349` and `src/mongo.rs:410-418`): the `sha2` streaming
hasher is, extensionally, "append bytes to a buffer, then digest". -/

structure Sha256 where
  buf : List Nat

def Sha256.new : Sha256 := ⟨[]⟩

def Sha256.update (h : Sha256) (bytes : List Nat) : Sha256 := ⟨h.buf ++ bytes⟩

def Sha256.finalizeHex (h : Sha256) : String := sha256HexOfBytes h.buf

/-! ### `get_transfer_id` (`ERCTransfer` at `src/mongo.rs:410-418`,
`ERC1155Transfer` at `src/mongo.rs:341-349`). The Rust takes `&str` arguments
and hashes their UTF-8 bytes; here the arguments are those byte lists. -/

def ERCTransferId.get_transfer_id (hash index : List Nat) : String :=
  let hasher := Sha256.new
  let hasher := hasher.update hash
  let hasher := hasher.update [45]
  let hasher := hasher.update index
  hasher.finalizeHex

def ERC1155TransferId.get_transfer_id (hash index : List Nat) : String :=
  let hasher := Sha256.new
  let hasher := hasher.update hash
  let hasher := hasher.update [45]
  let hasher := hasher.update index
  hasher.finalizeHex

/-! ### The range planner `chunk_u64` (`src/main.rs:19-44`).
The Rust `loop` increases `num` by `chunk_size` each pass and stops when
`num >= max`; fuel `max + 1 - base` provably suffices when `chunk_size ≥ 1`. -/

def chunkGoRust (chunk_size max : Nat) : Nat → Nat → List (Nat × Nat)
  | 0, _ => []
  | fuel + 1, num =>
    let start := num
    let num2 := num + chunk_size
    if max ≤ num2 then [(start, max)]
    else (start, num2 - 1) :: chunkGoRust chunk_size max fuel num2

def chunk_u64 (base max chunk_size : Nat) : List (Nat × Nat) :=
  chunkGoRust chunk_size max (max + 1 - base) base

/-- Modelled from the spec's words (claim C5): the inclusive chunks of size `C`
are `[start, start+C-1], [start+C, start+2C-1], …` with the final chunk
truncated at `stop`. -/
def specChunks (start stop chunk_size : Nat) : List (Nat × Nat) :=
  specChunksGo stop chunk_size (stop + 1 - start) start
where
  specChunksGo (stop chunk_size : Nat) : Nat → Nat → List (Nat × Nat)
    | 0, _ => []
    | fuel + 1, num =>
      if stop ≤ num + chunk_size - 1 then [(num, stop)]
      else (num, num + chunk_size - 1) :: specChunksGo stop chunk_size fuel (num + chunk_size)

/-! ### CLI arguments (`src/cli_args.rs`), with the clap default values. -/

structure Args where
  db_uri : String
  db_name : String
  web3_hostname : String
  replay : Bool
  empty_logs : Bool
  debug : Bool
  start_block : Nat
  stop_block : Nat
  debug_disable_wallet_updates : Bool
  feature_erc_transfers : Bool
  feature_erc_721_sales : Bool
  feature_transactions : Bool
  feature_wallet_updates : Bool
  max_thread_count : Nat
deriving DecidableEq, Repr

/-- The clap `default_value` of every flag (`src/cli_args.rs`). -/
def argsDefault : Args :=
  { db_uri := "mongodb://127.0.0.1:27017"
    db_name := "roninchain"
    web3_hostname := "ws://localhost:8546"
    replay := false
    empty_logs := false
    debug := false
    start_block := 0
    stop_block := 0
    debug_disable_wallet_updates := true
    feature_erc_transfers := true
    feature_erc_721_sales := true
    feature_transactions := true
    feature_wallet_updates := false
    max_thread_count := 0 }

/-! ### Topic constants and deploy heights (`src/ronin.rs:30-44`).
The source stores them as `0x…` strings and compares serialized values;
serialization of 256-bit words to lowercase hex is injective, so the
embedding keeps the numeric value whose hex digits are the source literal. -/

def ERC_TRANSFER_TOPIC : Nat :=
  0xddf252ad1be2c89b69c2b068fc378daa952ba7f163c4a11628f55a4df523b3ef

def MARKETPLACE_V2_ORDER_MATCHED_TOPIC : Nat :=
  0xafa0d706792fa5d4e9aaf5e456e08e2a833b1e64a201710b782f29172f6d7a3a

def MARKETPLACE_V2_DEPLOY_BLOCK : Nat := 16027461

def MARKETPLACE_AXIE_SALE_TOPIC : Nat :=
  0x0c0258cd7f0d9474f62106c6981c027ea54bee0b323ea1991f4caa7e288a5725

def ERC1155_TRANSFER_SINGLE_TOPIC : Nat :=
  0xc3d58168c5ae7397731d063d5bbf3d657854427343f4c083240f7aacaa2d0f62

def ERC1155_DEPLOY_BLOCK : Nat := 16171588

def WETH_ADDRESS : Nat := 0xc99a6a985ed2cac1ef41640596c5a5f9f4e19ef5

/-! ### Contract registry (`Ronin::contract_list`, `src/ronin.rs:294-448`). -/

inductive ContractType where
  | ERC20
  | ERC721
  | ERC1155
  | Erc1155Bulk
  | Unknown
  | MarketplaceV2
  | LegacyErc721Sale
deriving DecidableEq, Repr

structure Contract where
  name : String
  decimals : Nat
  erc : ContractType
  address : Nat
deriving DecidableEq, Repr

/-- The 15 `map.insert` calls of `contract_list`, in source order; the map is
keyed by the (distinct) addresses, so association-list lookup is faithful. -/
def contract_list : List (Nat × Contract) :=
  [ (0x814a9c959a3ef6ca44b5e2349e3bba9845393947,
     ⟨"CHARM", 0, .ERC1155, 0x814a9c959a3ef6ca44b5e2349e3bba9845393947⟩),
    (0xc25970724f032af21d801978c73653c440cf787c,
     ⟨"RUNE", 0, .ERC1155, 0xc25970724f032af21d801978c73653c440cf787c⟩),
    (0xc99a6a985ed2cac1ef41640596c5a5f9f4e19ef5,
     ⟨"WETH", 18, .ERC20, 0xc99a6a985ed2cac1ef41640596c5a5f9f4e19ef5⟩),
    (0x97a9107c1793bc407d6f527b77e7fff4d812bece,
     ⟨"AXS", 18, .ERC20, 0x97a9107c1793bc407d6f527b77e7fff4d812bece⟩),
    (0xa8754b9fa15fc18bb59458815510e40a12cd2014,
     ⟨"SLP", 0, .ERC20, 0xa8754b9fa15fc18bb59458815510e40a12cd2014⟩),
    (0x173a2d4fa585a63acd02c107d57f932be0a71bcc,
     ⟨"AEC", 0, .ERC20, 0x173a2d4fa585a63acd02c107d57f932be0a71bcc⟩),
    (0x0b7007c13325c48911f73a2dad5fa5dcbf808adc,
     ⟨"USDC", 18, .ERC20, 0x0b7007c13325c48911f73a2dad5fa5dcbf808adc⟩),
    (0xe514d9deb7966c8be0ca922de8a064264ea6bcd4,
     ⟨"WRON", 18, .ERC20, 0xe514d9deb7966c8be0ca922de8a064264ea6bcd4⟩),
    (0xc6344bc1604fcab1a5aad712d766796e2b7a70b9,
     ⟨"AXS-WETH-LP", 18, .ERC20, 0xc6344bc1604fcab1a5aad712d766796e2b7a70b9⟩),
    (0x306a28279d04a47468ed83d55088d0dcd1369294,
     ⟨"SLP-WETH-LP", 18, .ERC20, 0x306a28279d04a47468ed83d55088d0dcd1369294⟩),
    (0x2ecb08f87f075b5769fe543d0e52e40140575ea7,
     ⟨"RON-WETH-LP", 18, .ERC20, 0x2ecb08f87f075b5769fe543d0e52e40140575ea7⟩),
    (0xa7964991f339668107e2b6a6f6b8e8b74aa9d017,
     ⟨"USDC-WETH-LP", 18, .ERC20, 0xa7964991f339668107e2b6a6f6b8e8b74aa9d017⟩),
    (0x32950db2a7164ae833121501c797d79e7b79d74c,
     ⟨"AXIE", 0, .ERC721, 0x32950db2a7164ae833121501c797d79e7b79d74c⟩),
    (0x8c811e3c958e190f5ec15fb376533a3398620500,
     ⟨"LAND", 0, .ERC721, 0x8c811e3c958e190f5ec15fb376533a3398620500⟩),
    (0xa96660f0e4a3e9bc7388925d245a6d4d79e21259,
     ⟨"ITEM", 0, .ERC721, 0xa96660f0e4a3e9bc7388925d245a6d4d79e21259⟩) ]

/-- `contracts.get(&address)` on the registry `HashMap`. -/
def contractGet (a : Nat) : Option Contract :=
  (contract_list.find? (fun p => p.1 == a)).map (fun p => p.2)

/-- The `contract_list().values().filter(erc == ERC721).map(address)` list used
by both sale decoders (order irrelevant: used only for membership). -/
def erc721RegistryAddresses : List Nat :=
  ((contract_list.map (fun p => p.2)).filter (fun c => c.erc == .ERC721)).map
    (fun c => c.address)

/-! ### Event descriptions (`Ronin::transfer_events`, `src/ronin.rs:103-292`).
`signature` is the keccak-256 of the canonical event signature (an external
computation); its value is the corresponding topic constant of the source. -/

inductive ParamKind where
  | address
  | uint (bits : Nat)
  | fixedBytes (n : Nat)
deriving DecidableEq, Repr

structure EventParamM where
  name : String
  kind : ParamKind
  indexed : Bool
deriving DecidableEq, Repr

structure EventM where
  name : String
  inputs : List EventParamM
  signature : Nat
deriving DecidableEq, Repr

def erc1155Event : EventM :=
  ⟨"TransferSingle",
   [⟨"operator", .address, true⟩, ⟨"from", .address, true⟩, ⟨"to", .address, true⟩,
    ⟨"id", .uint 256, false⟩, ⟨"value", .uint 256, false⟩],
   ERC1155_TRANSFER_SINGLE_TOPIC⟩

def erc20Event : EventM :=
  ⟨"Transfer",
   [⟨"_from", .address, true⟩, ⟨"_to", .address, true⟩, ⟨"_value", .uint 256, false⟩],
   ERC_TRANSFER_TOPIC⟩

def erc721Event : EventM :=
  ⟨"Transfer",
   [⟨"_from", .address, true⟩, ⟨"_to", .address, true⟩, ⟨"_tokenId", .uint 256, true⟩],
   ERC_TRANSFER_TOPIC⟩

def auctionSuccessfulEvent : EventM :=
  ⟨"AuctionSuccessful",
   [⟨"_seller", .address, false⟩, ⟨"_buyer", .address, false⟩,
    ⟨"_listingIndex", .uint 256, false⟩, ⟨"_token", .address, false⟩,
    ⟨"_totalPrice", .uint 256, false⟩],
   MARKETPLACE_AXIE_SALE_TOPIC⟩

def orderMatchedEvent : EventM :=
  ⟨"OrderMatched",
   [⟨"hash", .fixedBytes 32, false⟩, ⟨"maker", .address, false⟩,
    ⟨"matcher", .address, false⟩, ⟨"kind", .uint 8, false⟩,
    ⟨"bidToken", .address, false⟩, ⟨"bidPrice", .uint 256, false⟩,
    ⟨"paymentToken", .address, false⟩, ⟨"settlePrice", .uint 256, false⟩,
    ⟨"sellerReceived", .uint 256, false⟩, ⟨"marketFeePercentage", .uint 256, false⟩,
    ⟨"marketFeeTaken", .uint 256, false⟩],
   MARKETPLACE_V2_ORDER_MATCHED_TOPIC⟩

def transfer_events : ContractType → Option EventM
  | .ERC1155 => some erc1155Event
  | .ERC20 => some erc20Event
  | .LegacyErc721Sale => some auctionSuccessfulEvent
  | .ERC721 => some erc721Event
  | .MarketplaceV2 => some orderMatchedEvent
  | _ => none

/-! ### ethabi log parsing, at 32-byte word granularity.
All parameter types used here are single-word static types; indexed
parameters come from `topics[1..]`, the rest sequentially from `data`.
`parse_log` fails unless `topics[0]` is the event signature and the arity
matches, like `ethabi::Event::parse_log`. -/

structure TokenM where
  kind : ParamKind
  value : Nat
deriving DecidableEq, Repr

/-- ABI word decoding: an `address` takes the low 20 bytes of the word. -/
def decodeWord (k : ParamKind) (w : Nat) : Nat :=
  match k with
  | .address => w % 2 ^ 160
  | _ => w

def buildParams : List EventParamM → List Nat → List Nat → List TokenM
  | [], _, _ => []
  | p :: ps, ts, ds =>
    if p.indexed then ⟨p.kind, decodeWord p.kind (ts.headD 0)⟩ :: buildParams ps (ts.drop 1) ds
    else ⟨p.kind, decodeWord p.kind (ds.headD 0)⟩ :: buildParams ps ts (ds.drop 1)

def parse_log (ev : EventM) (topics data : List Nat) : Option (List TokenM) :=
  let nIdx := (ev.inputs.filter (fun p => p.indexed)).length
  let nData := (ev.inputs.filter (fun p => !p.indexed)).length
  if topics.headD 0 = ev.signature ∧ topics.length = 1 + nIdx ∧ nData ≤ data.length then
    some (buildParams ev.inputs (topics.drop 1) data)
  else none

/-- `ethabi::Token::to_string`: addresses print as 40 padded hex digits,
uints as unpadded hex, fixed bytes as padded hex. -/
def tokenToString (t : TokenM) : String :=
  match t.kind with
  | .address => String.mk (hexPadChars 40 t.value)
  | .uint _ => String.mk (hexNoPadChars t.value)
  | .fixedBytes _ => String.mk (hexPadChars 64 t.value)

def defaultToken : TokenM := ⟨.uint 256, 0⟩

/-! ### Persisted record types (`src/mongo.rs`).
`Sale` (`src/mongo.rs:197-208`) has exactly eight fields — in particular NO
`block` field — although both construction sites in `src/ronin.rs` (lines
555-574 and 641-660) additionally supply `block`; claim C4 documents this
mismatch, and the embedding keeps the struct's fields.  `created_at` and
`timestamp` are millisecond epochs (`DateTime::from_millis`). -/

structure Sale where
  seller : String
  buyer : String
  price : String
  seller_received : String
  token : String
  token_id : String
  transaction_id : String
  created_at : Nat
deriving DecidableEq, Repr

structure Transaction where
  «from» : String
  «to» : String
  hash : String
  block : Nat
  timestamp : Nat
deriving DecidableEq, Repr

structure ERCTransfer where
  «from» : String
  «to» : String
  token : String
  value_or_token_id : String
  block : Nat
  transaction_id : String
  erc : ContractType
  log_index : String
  log_id : String
deriving DecidableEq, Repr

structure ERC1155Transfer where
  token : String
  operator : String
  «from» : String
  «to» : String
  token_id : String
  value : String
  block : Nat
  transaction_id : String
  log_index : String
  log_id : String
deriving DecidableEq, Repr

/-- The `[filter, update]` document pair buffered by
`WalletProvider::update` (`src/mongo.rs:163-180`). -/
structure WalletUpdate where
  address : String
  block : Nat
  transaction : String
deriving DecidableEq, Repr

/-- Field names of `struct Sale` (`src/mongo.rs:197-208`), in declaration
order; serde persists exactly these. -/
def saleStructFields : List String :=
  ["seller", "buyer", "price", "seller_received", "token", "token_id",
   "transaction_id", "created_at"]

/-- Field names supplied by the `Sale { … }` construction sites
(`src/ronin.rs:555-574` and `src/ronin.rs:641-660`), in source order. -/
def saleConstructorFields : List String :=
  ["seller", "buyer", "price", "seller_received", "token", "token_id",
   "transaction_id", "created_at", "block"]

/-- Modelled from the spec (claim C4): the field set the spec assigns to a
persisted Sale record. -/
def specSaleFields : List String :=
  ["seller", "buyer", "price", "seller_received", "token", "token_id",
   "transaction_id", "created_at", "block"]

/-! ### web3 input data: logs, receipts, transactions, blocks. -/

structure LogM where
  address : Nat
  topics : List Nat
  data : List Nat
  transaction_hash : Option Nat
  log_index : Option Nat
deriving DecidableEq, Repr

structure ReceiptM where
  transaction_hash : Nat
  block_number : Option Nat
  logs : List LogM
deriving DecidableEq, Repr

/-- A block transaction together with its fetched receipt (the walker fetches
`eth_getTransactionReceipt(tx.hash)` for every transaction). -/
structure TxM where
  «from» : Nat
  «to» : Option Nat
  hash : Nat
  receipt : ReceiptM
deriving DecidableEq, Repr

structure BlockData where
  number : Nat
  timestamp : Nat
  transactions : List TxM
deriving DecidableEq, Repr

/-! ### Sale decoders (`Ronin::legacy_erc_sale`, `src/ronin.rs:491-583`, and
`Ronin::order_matched`, `src/ronin.rs:585-670`).  `ts` is the timestamp (in
seconds) of the block the decoder fetches via `tx.block_number`. -/

/-- The transfer-log filter of `legacy_erc_sale` (`src/ronin.rs:517-526`):
Topic0 is the ERC transfer topic, the address is not WETH, and the address is
a registry ERC-721 contract.  (Indexing `topics[0]` panics on a topicless
log; the caller checks that separately.) -/
def legacyTransferPred (x : LogM) : Bool :=
  x.topics.headD 0 == ERC_TRANSFER_TOPIC && !(x.address == WETH_ADDRESS)
    && erc721RegistryAddresses.contains x.address

def legacy_erc_sale (ts : Nat) (tx : ReceiptM) : Except String (Option Sale) :=
  if tx.logs.isEmpty then .ok none
  else
    match tx.logs.filter (fun x => x.topics.any (fun t => t == MARKETPLACE_AXIE_SALE_TOPIC)) with
    | [] => .ok none
    | sl :: _ =>
      if tx.logs.any (fun l => l.topics.isEmpty) then
        .error "index out of bounds: the len is 0 but the index is 0"
      else
        match tx.logs.filter legacyTransferPred with
        | [] => .ok none
        | tl :: _ =>
          match parse_log auctionSuccessfulEvent sl.topics sl.data with
          | none => .error "called Result::unwrap on an Err value: parse_log AuctionSuccessful"
          | some parsed_sale =>
            match parse_log erc721Event tl.topics tl.data with
            | none => .error "called Result::unwrap on an Err value: parse_log Transfer"
            | some parsed_transfer =>
              match tx.block_number with
              | none => .error "called Option::unwrap on a None value"
              | some _ =>
                .ok (some
                  { seller := "0x" ++ tokenToString (parsed_sale.getD 0 defaultToken)
                    buyer := "0x" ++ tokenToString (parsed_sale.getD 1 defaultToken)
                    price := tokenToString (parsed_sale.getD 4 defaultToken)
                    seller_received := tokenToString (parsed_sale.getD 4 defaultToken)
                    token := toStringAddr tl.address
                    token_id := tokenToString (parsed_transfer.getD 2 defaultToken)
                    transaction_id := toStringWord tx.transaction_hash
                    created_at := ts * 1000 })

/-- `Ronin::has_order_matched` (`src/ronin.rs:585-596`): first log whose
`topics[0]` is the OrderMatched topic (indexing panics on a topicless log;
the caller checks that separately). -/
def has_order_matched (logs : List LogM) : Option LogM :=
  logs.find? (fun l => l.topics.headD 0 == MARKETPLACE_V2_ORDER_MATCHED_TOPIC)

def order_matched (ts : Nat) (tx : ReceiptM) : Except String (Option Sale) :=
  if tx.logs.isEmpty then .ok none
  else if tx.logs.any (fun l => l.topics.isEmpty) then
    .error "index out of bounds: the len is 0 but the index is 0"
  else
    match has_order_matched tx.logs with
    | none => .ok none
    | some matched_order =>
      match parse_log orderMatchedEvent matched_order.topics matched_order.data with
      | none => .error "called Result::unwrap on an Err value: parse_log OrderMatched"
      | some parsed_sale_data =>
        match tx.logs.find? (fun c => erc721RegistryAddresses.contains c.address) with
        | none => .ok none
        | some erc_transfer_log =>
          match parse_log erc721Event erc_transfer_log.topics erc_transfer_log.data with
          | none => .error "called Result::unwrap on an Err value: parse_log Transfer"
          | some erc_transfer =>
            match tx.block_number with
            | none => .error "called Option::unwrap on a None value"
            | some _ =>
              .ok (some
                { seller := "0x" ++ tokenToString (parsed_sale_data.getD 1 defaultToken)
                  buyer := "0x" ++ tokenToString (parsed_sale_data.getD 2 defaultToken)
                  price := tokenToString (parsed_sale_data.getD 7 defaultToken)
                  seller_received := tokenToString (parsed_sale_data.getD 8 defaultToken)
                  token := toStringAddr erc_transfer_log.address
                  token_id := tokenToString (erc_transfer.getD 2 defaultToken)
                  transaction_id := toStringWord tx.transaction_hash
                  created_at := ts * 1000 })

/-! ### The per-log transfer dispatch of the walker
(`Ronin::stream`, `src/ronin.rs:845-991`). -/

def mkERC1155Transfer (bn : Nat) (l : LogM) (ps : List TokenM) : ERC1155Transfer :=
  { token := toStringAddr l.address
    operator := "0x" ++ tokenToString (ps.getD 0 defaultToken)
    «from» := "0x" ++ tokenToString (ps.getD 1 defaultToken)
    «to» := "0x" ++ tokenToString (ps.getD 2 defaultToken)
    token_id := tokenToString (ps.getD 3 defaultToken)
    value := tokenToString (ps.getD 4 defaultToken)
    block := bn
    transaction_id := toStringOptWord l.transaction_hash
    log_index := toStringOptU256 l.log_index
    log_id := ERC1155TransferId.get_transfer_id
      (asciiBytes (toStringOptWord l.transaction_hash))
      (asciiBytes (toStringOptU256 l.log_index)) }

def mkERCTransfer (bn : Nat) (l : LogM) (erc : ContractType) (ps : List TokenM) : ERCTransfer :=
  { «from» := "0x" ++ tokenToString (ps.getD 0 defaultToken)
    «to» := "0x" ++ tokenToString (ps.getD 1 defaultToken)
    token := toStringAddr l.address
    value_or_token_id := tokenToString (ps.getD 2 defaultToken)
    block := bn
    transaction_id := toStringOptWord l.transaction_hash
    erc := erc
    log_index := toStringOptU256 l.log_index
    log_id := ERCTransferId.get_transfer_id
      (asciiBytes (toStringOptWord l.transaction_hash))
      (asciiBytes (toStringOptU256 l.log_index)) }

/-- The second half of the per-log body (`src/ronin.rs:927-990`): the ERC-20 /
ERC-721 transfer match.  `first` is the ERC-1155 record already produced for
this log, threaded through unchanged. -/
def ercTransferStep (bn : Nat) (l : LogM) (first : Option ERC1155Transfer) :
    Except String (Option ERC1155Transfer × Option ERCTransfer) :=
  if l.topics.any (fun t => t == ERC_TRANSFER_TOPIC) then
    match contractGet l.address with
    | none => .ok (first, none)
    | some contract =>
      match transfer_events contract.erc with
      | none => .error "called Option::unwrap on a None value"
      | some ev =>
        match parse_log ev l.topics l.data with
        | none => .error "Failed to parsed transaction log!"
        | some ps => .ok (first, some (mkERCTransfer bn l contract.erc ps))
  else .ok (first, none)

/-- One iteration of `for log in receipt.logs` under `feature_erc_transfers`
(`src/ronin.rs:845-991`): the height-gated ERC-1155 match first — whose
registry miss `continue`s, skipping the ERC transfer match — then the ERC
transfer match.  `cb` is the walker's `current_block`, `bn` the fetched
block's number. -/
def processLogTransfers (cb bn : Nat) (l : LogM) :
    Except String (Option ERC1155Transfer × Option ERCTransfer) :=
  if ERC1155_DEPLOY_BLOCK < cb ∧ l.topics.any (fun t => t == ERC1155_TRANSFER_SINGLE_TOPIC) = true then
    match contractGet l.address with
    | none => .ok (none, none)
    | some _ =>
      match transfer_events .ERC1155 with
      | none => .error "called Option::unwrap on a None value"
      | some ev =>
        match parse_log ev l.topics l.data with
        | none => .error "Failed to parsed transaction log!"
        | some ps => ercTransferStep bn l (some (mkERC1155Transfer bn l ps))
  else ercTransferStep bn l none

def processLogs (args : Args) (cb bn : Nat) :
    List LogM → Except String (List ERC1155Transfer × List ERCTransfer)
  | [] => .ok ([], [])
  | l :: rest =>
    if args.feature_erc_transfers then
      match processLogTransfers cb bn l with
      | .error e => .error e
      | .ok (o1155, oerc) =>
        match processLogs args cb bn rest with
        | .error e => .error e
        | .ok (l1155, lerc) => .ok (o1155.toList ++ l1155, oerc.toList ++ lerc)
    else processLogs args cb bn rest

/-! ### Per-transaction processing (`Ronin::stream` body, `src/ronin.rs:783-1006`). -/

structure TxOut where
  walletUpdates : List WalletUpdate
  sale : Option Sale
  erc1155s : List ERC1155Transfer
  ercs : List ERCTransfer
  txRecord : Option Transaction
deriving DecidableEq, Repr

/-- The two `wallet_pool.update` calls per transaction
(`src/ronin.rs:788-799`), keyed by the serialized `from`/`to` strings. -/
def walletUpdatesFor (args : Args) (bn : Nat) (tx_from tx_to tx_hash : String) :
    List WalletUpdate :=
  if args.feature_wallet_updates then
    [⟨tx_from, bn, tx_hash⟩, ⟨tx_to, bn, tx_hash⟩]
  else []

/-- The sale dispatch per receipt (`src/ronin.rs:820-842`): V2 `order_matched`
when `current_block > MARKETPLACE_V2_DEPLOY_BLOCK`, `legacy_erc_sale`
otherwise. -/
def saleStep (args : Args) (cb ts : Nat) (rcpt : ReceiptM) : Except String (Option Sale) :=
  if args.feature_erc_721_sales then
    if MARKETPLACE_V2_DEPLOY_BLOCK < cb then order_matched ts rcpt
    else legacy_erc_sale ts rcpt
  else .ok none

/-- The `if !receipt.logs.is_empty()` guard around the log loop
(`src/ronin.rs:844-845`). -/
def logsStep (args : Args) (cb bn : Nat) (rcpt : ReceiptM) :
    Except String (List ERC1155Transfer × List ERCTransfer) :=
  if rcpt.logs.isEmpty then .ok ([], [])
  else processLogs args cb bn rcpt.logs

/-- The `Transaction` record pushed under `feature_transactions`
(`src/ronin.rs:995-1006`).  Note the faithful oddities: `block` is
`current_block` (`src/ronin.rs:1003`) and `from`/`to` get a second
`0x` prefix (`src/ronin.rs:996-997`). -/
def txRecordFor (args : Args) (cb ts : Nat) (tx_from tx_to hashStr : String) :
    Option Transaction :=
  if args.feature_transactions then
    some { «from» := "0x" ++ tx_from, «to» := "0x" ++ tx_to,
           hash := hashStr, block := cb, timestamp := ts * 1000 }
  else none

/-- Records produced for one transaction of block `bn` (timestamp `ts`
seconds) while the walker's counter is `cb`, assembled from the steps above
in the source's order (`src/ronin.rs:783-1006`); the wallet updates use the
serialized strings directly. -/
def processTx (args : Args) (cb bn ts : Nat) (tx : TxM) : Except String TxOut :=
  match saleStep args cb ts tx.receipt with
  | .error e => .error e
  | .ok sale =>
    match logsStep args cb bn tx.receipt with
    | .error e => .error e
    | .ok (e1155, ercs) =>
      .ok { walletUpdates := walletUpdatesFor args bn (toStringAddr tx.«from»)
              (toStringOptAddr tx.«to») (toStringWord tx.hash)
            sale := sale
            erc1155s := e1155
            ercs := ercs
            txRecord := txRecordFor args cb ts (toStringAddr tx.«from»)
              (toStringOptAddr tx.«to») (toStringWord tx.hash) }

/-! ### Database-effect trace of `Ronin::stream` (`src/ronin.rs:672-1112`). -/

inductive Effect where
  | sleepSec (n : Nat)
  | dropColl (name : String)
  | createIndexes
  | setSetting (key : String)
  | insertMany (coll : String)
  | commitPool (coll : String)
deriving DecidableEq, Repr

structure LargestBlock where
  number : Nat
  tx_num : Nat
deriving DecidableEq, Repr

/-- Effects before the block loop (`src/ronin.rs:672-721`): the debug warning
sleep, and — whenever `replay` is set, debug mode or not — the 15-second
interlock, the five collection drops, and the index re-bootstrap. -/
def streamPreamble (args : Args) : List Effect :=
  (if args.debug then [.sleepSec 1] else []) ++
  (if args.replay then
     [.sleepSec 15, .dropColl "settings", .dropColl "wallets", .dropColl "transactions",
      .dropColl "erc_transfers", .dropColl "erc1155_transfers", .createIndexes]
   else [])

def processTxAll (args : Args) (cb bn ts : Nat) : List TxM → Except String Unit
  | [] => .ok ()
  | tx :: rest =>
    match processTx args cb bn ts tx with
    | .error e => .error e
    | .ok _ => processTxAll args cb bn ts rest

/-- Database effects of one iteration of the block loop
(`src/ronin.rs:747-1104`), with the walker's counter at `cb`. -/
def processBlockEffects (args : Args) (cb : Nat) (largest : LargestBlock) (bd : BlockData) :
    Except String (List Effect × LargestBlock) :=
  let n := bd.transactions.length
  if 0 < n then
    match processTxAll args cb bd.number bd.timestamp bd.transactions with
    | .error e => .error e
    | .ok _ =>
      let bump := args.debug = false ∧ largest.tx_num < n
      let e1 := if bump then [Effect.setSetting "largest_block_by_tx_num"] else []
      let largest2 := if bump then (⟨bd.number, n⟩ : LargestBlock) else largest
      let e2 := if args.debug = false ∧ args.feature_transactions = true then
          [Effect.insertMany "transactions"] else []
      let e3 := if args.debug = false then
          (if args.feature_erc_transfers then
             [Effect.commitPool "erc_transfers", Effect.commitPool "erc1155_transfers"]
           else []) ++
          (if args.feature_erc_721_sales then [Effect.commitPool "erc721_sales"] else []) ++
          (if args.feature_wallet_updates then [Effect.commitPool "wallets"] else [])
        else []
      let e4 := if args.debug = false then [Effect.setSetting "last_block"] else []
      .ok (e1 ++ e2 ++ e3 ++ e4, largest2)
  else
    .ok ((if args.debug = false then [Effect.setSetting "last_block"] else []), largest)

def streamLoop (args : Args) : Nat → LargestBlock → List BlockData → Except String (List Effect)
  | _, _, [] => .ok []
  | cb, largest, bd :: rest =>
    match processBlockEffects args cb largest bd with
    | .error e => .error e
    | .ok (effs, largest2) =>
      match streamLoop args (cb + 1) largest2 rest with
      | .error e => .error e
      | .ok more => .ok (effs ++ more)

/-- Database-effect trace of `Ronin::stream` over the blocks of
`[start, stop]` (supplied as `blocks`); `largest0` is the stored
`largest_block_by_tx_num` read at entry.  When `start > stop` the walker
returns right after the preamble ("Offset not large enough"). -/
def stream (args : Args) (start stop : Nat) (largest0 : LargestBlock)
    (blocks : List BlockData) : Except String (List Effect) :=
  if stop < start then .ok (streamPreamble args)
  else
    match streamLoop args start largest0 blocks with
    | .error e => .error e
    | .ok effs => .ok (streamPreamble args ++ effs)

/-! ### The write pool (`Pool<T>`, `src/mongo.rs:420-526`). -/

inductive CommitEffect (α β : Type) where
  | insertBatchUnordered (docs : List α)
  | updateOne (filter upd : β) (upsert : Bool)
  | logFailure (filter upd : β)
deriving DecidableEq

structure Pool (α β : Type) where
  updates : List (β × β)
  inserts : List α
deriving DecidableEq

def Pool.new (α β : Type) : Pool α β := ⟨[], []⟩

/-- `Pool::insert` (`src/mongo.rs:453-465`): dedup by full-document equality,
last write wins (remove the previous copy, push to the back). -/
def Pool.insert [DecidableEq α] (p : Pool α β) (x : α) : Pool α β :=
  match p.inserts.contains x with
  | true => ⟨p.updates, p.inserts.erase x ++ [x]⟩
  | false => ⟨p.updates, p.inserts ++ [x]⟩

/-- `Pool::update` (`src/mongo.rs:467-479`): dedup by filter equality, last
write wins. -/
def Pool.update [DecidableEq β] (p : Pool α β) (u : β × β) : Pool α β :=
  match p.updates.any (fun d => d.1 == u.1) with
  | true => ⟨p.updates.eraseP (fun d => d.1 == u.1) ++ [u], p.inserts⟩
  | false => ⟨p.updates ++ [u], p.inserts⟩

def Pool.len (p : Pool α β) : Nat := p.updates.length + p.inserts.length

/-- The update half of `Pool::commit`: each buffered update is applied
individually; a failed update (per the database oracle `env`) is only
logged and the loop continues. -/
def commitUpdates (env : β × β → Bool) (upsert : Bool) :
    List (β × β) → List (CommitEffect α β)
  | [] => []
  | u :: rest =>
    CommitEffect.updateOne u.1 u.2 upsert ::
      ((if env u then [] else [CommitEffect.logFailure u.1 u.2]) ++
        commitUpdates env upsert rest)

/-- `Pool::commit` (`src/mongo.rs:485-524`): one unordered insert batch (its
result is `.ok()`-swallowed), then the updates individually with the given
upsert policy, then both buffers are cleared unconditionally.  `env` is the
database's per-update success oracle. -/
def Pool.commit (env : β × β → Bool) (p : Pool α β) (upsert : Bool) :
    List (CommitEffect α β) × Pool α β :=
  ((if p.inserts.isEmpty then [] else [CommitEffect.insertBatchUnordered p.inserts]) ++
     (if p.updates.isEmpty then [] else commitUpdates env upsert p.updates),
   ⟨[], []⟩)

def CommitEffect.isLog : CommitEffect α β → Bool
  | .logFailure _ _ => true
  | _ => false

/-! ### The address regex of the spec (claim C6): `^0x[0-9a-f]{40}$`. -/

def isAddressString (s : String) : Bool :=
  match s.data with
  | '0' :: 'x' :: rest =>
    rest.length == 40 && rest.all (fun c => c.isDigit || ('a' ≤ c && c ≤ 'f'))
  | _ => false

deriving instance DecidableEq for Except

/-! ### Concrete inputs used by witnesses and counterexamples. -/

/-- A debug-mode run that also has `--replay` set. -/
def argsDebugReplay : Args := { argsDefault with debug := true, replay := true }

/-- A `--replay` run with the default flags. -/
def argsReplay : Args := { argsDefault with replay := true }

/-- Default flags plus `--feature-wallet-updates`. -/
def argsWallets : Args := { argsDefault with feature_wallet_updates := true }

/-- Default flags with every decoder feature off except ERC-721 sales. -/
def argsSalesOnly : Args :=
  { argsDefault with feature_erc_transfers := false, feature_transactions := false }

/-- A contract-creation transaction (`to` absent) from a registry address. -/
def txCreate : TxM :=
  { «from» := 0x814a9c959a3ef6ca44b5e2349e3bba9845393947, «to» := none, hash := 1,
    receipt := { transaction_hash := 1, block_number := some 100, logs := [] } }

/-- A transaction with an empty receipt. -/
def txPlain : TxM :=
  { «from» := 3, «to» := some 4, hash := 5,
    receipt := { transaction_hash := 5, block_number := some 100, logs := [] } }

/-- A log of the registered ERC-1155 contract CHARM whose Topic0 is the
TransferSingle topic and whose last indexed topic happens to equal the ERC
transfer topic word. -/
def logCharm1155 : LogM :=
  { address := 0x814a9c959a3ef6ca44b5e2349e3bba9845393947,
    topics := [ERC1155_TRANSFER_SINGLE_TOPIC, 1, 2, ERC_TRANSFER_TOPIC],
    data := [5, 7], transaction_hash := some 0xabc, log_index := some 0 }

/-- A well-formed WETH ERC-20 Transfer log (value 10). -/
def logWeth : LogM :=
  { address := WETH_ADDRESS, topics := [ERC_TRANSFER_TOPIC, 1, 2], data := [10],
    transaction_hash := some 0xabc, log_index := some 0 }

/-- The WETH registry entry. -/
def wethContract : Contract :=
  ⟨"WETH", 18, .ERC20, 0xc99a6a985ed2cac1ef41640596c5a5f9f4e19ef5⟩

/-- The decoded parameters of `logWeth` under the ERC-20 schema. -/
def psWeth : List TokenM := [⟨.address, 1⟩, ⟨.address, 2⟩, ⟨.uint 256, 10⟩]

/-- A legacy `AuctionSuccessful` log: seller `0xa`, buyer `0xb`, listing 1,
token word, total price 500. -/
def saleLogLegacy : LogM :=
  { address := 0x213073989821f738a7ba3520c3d31a1f9ad31bbd,
    topics := [MARKETPLACE_AXIE_SALE_TOPIC],
    data := [0xa, 0xb, 1, 0x32950db2a7164ae833121501c797d79e7b79d74c, 500],
    transaction_hash := some 0x1, log_index := some 0 }

/-- The matching AXIE ERC-721 Transfer log (token id 99). -/
def transferLogLegacy : LogM :=
  { address := 0x32950db2a7164ae833121501c797d79e7b79d74c,
    topics := [ERC_TRANSFER_TOPIC, 0xa, 0xb, 99],
    data := [], transaction_hash := some 0x1, log_index := some 1 }

/-- A legacy-sale receipt at block 15000000. -/
def receiptLegacy : ReceiptM :=
  { transaction_hash := 0x1, block_number := some 15000000,
    logs := [saleLogLegacy, transferLogLegacy] }

/-- The same receipt without the ERC-721 transfer log. -/
def receiptLegacyNoTransfer : ReceiptM := { receiptLegacy with logs := [saleLogLegacy] }

/-- The decoded `AuctionSuccessful` parameters of `saleLogLegacy`. -/
def psAuction : List TokenM :=
  [⟨.address, 0xa⟩, ⟨.address, 0xb⟩, ⟨.uint 256, 1⟩,
   ⟨.address, 0x32950db2a7164ae833121501c797d79e7b79d74c⟩, ⟨.uint 256, 500⟩]

/-- The decoded ERC-721 Transfer parameters of `transferLogLegacy`. -/
def psLegacyTransfer : List TokenM := [⟨.address, 0xa⟩, ⟨.address, 0xb⟩, ⟨.uint 256, 99⟩]

/-- The sale `legacy_erc_sale` produces for `receiptLegacy`. -/
def saleLegacy : Sale :=
  { seller := "0x000000000000000000000000000000000000000a"
    buyer := "0x000000000000000000000000000000000000000b"
    price := "1f4"
    seller_received := "1f4"
    token := "0x32950db2a7164ae833121501c797d79e7b79d74c"
    token_id := "63"
    transaction_id := "0x0000000000000000000000000000000000000000000000000000000000000001"
    created_at := 1650000000000 }

/-! ## Theorems -/

/-- Sanity anchor for the SHA-256 embedding: the FIPS 180-4 test vector
`sha256("abc")`. -/
theorem sha256_fips_vector_abc :
    sha256HexOfBytes [97, 98, 99] =
      "ba7816bf8f01cfea414140de5dae2223b00361a396177a9cb410ff61f20015ad" := by
  decide

/-- C1: for every pair of (byte lists of) strings `tx_hash` and `log_index`,
the `log_id` computed by `ERCTransfer::get_transfer_id` and by
`ERC1155Transfer::get_transfer_id` equals the lowercase-hex SHA-256 digest of
`tx_hash`, followed by the byte `0x2D` (`'-'`), followed by `log_index`; both
functions agree, so `log_id` is a deterministic function of the two inputs. -/
theorem log_id_is_sha256_of_dashed_pair : ∀ txHash logIndex : List Nat,
    ERCTransferId.get_transfer_id txHash logIndex = sha256_hex (txHash ++ [0x2d] ++ logIndex)
    ∧ ERC1155TransferId.get_transfer_id txHash logIndex
        = sha256_hex (txHash ++ [0x2d] ++ logIndex) := by
  intro h i
  constructor <;>
    simp [ERCTransferId.get_transfer_id, ERC1155TransferId.get_transfer_id, Sha256.new,
      Sha256.update, Sha256.finalizeHex, sha256_hex]

/-- C4 (code bug): `struct Sale` in `src/mongo.rs` has no `block` field, while
both `Sale { … }` construction sites in `src/ronin.rs` supply one (so the
crate does not even compile); the persisted field set therefore differs from
the spec's field set exactly by `block`. -/
theorem sale_struct_is_missing_block :
    saleStructFields ≠ specSaleFields
    ∧ "block" ∈ saleConstructorFields
    ∧ "block" ∉ saleStructFields
    ∧ saleStructFields ++ ["block"] = specSaleFields := by
  decide

/-- C5 counterexample: at `start = 1`, `stop = 6`, `C = 5` the code returns the
single chunk `[1, 6]` of size `C + 1 = 6`, while the spec's chunking ("each of
size C, final chunk truncated at stop") is `[1, 5], [6, 6]`. -/
theorem chunk_u64_spec_counterexample :
    chunk_u64 1 6 5 ≠ specChunks 1 6 5
    ∧ chunk_u64 1 6 5 = [(1, 6)]
    ∧ specChunks 1 6 5 = [(1, 5), (6, 6)] := by
  decide

/-- C2 (code bug): with `--debug` and `--replay` both set, the walker still
performs the five collection drops and the index re-bootstrap (writes to the
database) before the block loop — it only logs "Can't replay while in debug
mode!!!" without skipping the drop (`src/ronin.rs:681-721`). -/
theorem debug_replay_still_writes :
    stream argsDebugReplay 1 0 ⟨0, 0⟩ [] =
      .ok [Effect.sleepSec 1, Effect.sleepSec 15, Effect.dropColl "settings",
           Effect.dropColl "wallets", Effect.dropColl "transactions",
           Effect.dropColl "erc_transfers", Effect.dropColl "erc1155_transfers",
           Effect.createIndexes]
    ∧ Effect.dropColl "settings" ∈ streamPreamble argsDebugReplay
    ∧ argsDebugReplay.debug = true := by
  decide

/-- C6 (code bug): the stored `Transaction.from`/`Transaction.to` receive a
second `0x` prefix (`f!("0x{tx_from}")` applied to an already-prefixed serde
string, `src/ronin.rs:996-997`), and an absent `to` (contract creation)
serializes as `null`, so the stored wallet address is `"null"` and the stored
`Transaction.to` is `"0xnull"` — none of which match `^0x[0-9a-f]{40}$`. -/
theorem transaction_addresses_violate_regex :
    (processTx argsWallets 100 100 1700000000 txCreate).map
        (fun out => (out.txRecord.map (fun t => (t.«from», t.«to»)),
                     out.walletUpdates.map (fun w => w.address)))
      = .ok (some ("0x0x814a9c959a3ef6ca44b5e2349e3bba9845393947", "0xnull"),
             ["0x814a9c959a3ef6ca44b5e2349e3bba9845393947", "null"])
    ∧ isAddressString "0x0x814a9c959a3ef6ca44b5e2349e3bba9845393947" = false
    ∧ isAddressString "0xnull" = false
    ∧ isAddressString "null" = false
    ∧ isAddressString "0x814a9c959a3ef6ca44b5e2349e3bba9845393947" = true := by
  decide

/-- C8 counterexample: a log of the registered ERC-1155 contract CHARM whose
Topic0 is the TransferSingle topic (not the ERC transfer topic) but which
carries the ERC transfer topic in another position is decoded into an
`ERCTransfer` record (with `erc = ERC1155`) at a block below the ERC-1155
activation height — production without `Topic0 == ERC_TRANSFER`, refuting the
claimed "if and only if". -/
theorem erc_transfer_not_topic0_gated :
    (processLogTransfers 16171588 16171588 logCharm1155).map
        (fun p => p.2.map (fun t => (t.erc, t.token)))
      = .ok (some (ContractType.ERC1155, "0x814a9c959a3ef6ca44b5e2349e3bba9845393947"))
    ∧ (logCharm1155.topics.headD 0 == ERC_TRANSFER_TOPIC) = false := by
  decide

@[simp] theorem isLog_updateOne (f u : β) (b : Bool) :
    (CommitEffect.updateOne (α := α) f u b).isLog = false := rfl

@[simp] theorem isLog_insertBatch (docs : List α) :
    (CommitEffect.insertBatchUnordered (β := β) docs).isLog = false := rfl

@[simp] theorem isLog_logFailure (f u : β) :
    (CommitEffect.logFailure (α := α) f u).isLog = true := rfl

/-- The update half of `commit` issues one `updateOne` per buffered update, in
buffer order, regardless of which updates the database fails. -/
theorem commitUpdates_filter (env : β × β → Bool) (upsert : Bool) (l : List (β × β)) :
    (commitUpdates (α := α) env upsert l).filter (fun e => !e.isLog)
      = l.map (fun u => CommitEffect.updateOne u.1 u.2 upsert) := by
  induction l with
  | nil => rfl
  | cons u rest ih =>
    by_cases h : env u = true <;>
      simp [commitUpdates, h, List.filter_append, ih]

/-- C9: for every pool state, `commit(upsert)` first issues the single
unordered insert batch of all buffered inserts, then one individual update per
buffered update with the given upsert policy; afterwards both buffers are
cleared (`len() = 0`); and the issued operations do not depend on which
individual updates the database fails (failures only add log entries). -/
theorem pool_commit_inserts_then_updates_then_clears
    (α β : Type) (p : Pool α β) (upsert : Bool) (env env2 : β × β → Bool) :
    (p.commit env upsert).1.filter (fun e => !e.isLog)
      = (if p.inserts.isEmpty then [] else [CommitEffect.insertBatchUnordered p.inserts])
          ++ p.updates.map (fun u => CommitEffect.updateOne u.1 u.2 upsert)
    ∧ (p.commit env upsert).2.len = 0
    ∧ (p.commit env upsert).1.filter (fun e => !e.isLog)
        = (p.commit env2 upsert).1.filter (fun e => !e.isLog) := by
  refine ⟨?_, rfl, ?_⟩ <;>
    cases hu : p.updates.isEmpty <;> cases hi : p.inserts.isEmpty <;>
      simp_all [Pool.commit, List.filter_append, commitUpdates_filter, List.isEmpty_iff]

/-- Invariant of the `chunk_u64` loop: starting at `num ≤ max` with positive
chunk size and sufficient fuel, the produced chunks start at `num`, end at
`max`, are contiguous, have size exactly `C` except the final one (which ends
at `max` and has size at most `C + 1`), are strictly ordered and disjoint, and
cover exactly `[num, max]`. -/
theorem chunkGo_spec (C max : Nat) (hC : 1 ≤ C) : ∀ fuel num, num ≤ max → max - num < fuel →
    (chunkGoRust C max fuel num).head?.map Prod.fst = some num
    ∧ ((chunkGoRust C max fuel num).getLast?).map Prod.snd = some max
    ∧ List.Chain' (fun a b => b.1 = a.2 + 1) (chunkGoRust C max fuel num)
    ∧ (∀ p ∈ (chunkGoRust C max fuel num).dropLast, p.2 + 1 = p.1 + C)
    ∧ (∀ p ∈ chunkGoRust C max fuel num, num ≤ p.1 ∧ p.1 ≤ p.2 ∧ p.2 ≤ max ∧ p.2 ≤ p.1 + C)
    ∧ (∀ n, (num ≤ n ∧ n ≤ max) ↔ ∃ p ∈ chunkGoRust C max fuel num, p.1 ≤ n ∧ n ≤ p.2)
    ∧ List.Pairwise (fun a b => a.2 < b.1) (chunkGoRust C max fuel num) := by
  intro fuel
  induction fuel with
  | zero => intro num h2 h3; omega
  | succ f ih =>
    intro num h2 h3
    by_cases hdone : max ≤ num + C
    · simp only [chunkGoRust, if_pos hdone]
      refine ⟨rfl, rfl, ?_, ?_, ?_, ?_, ?_⟩
      · simp
      · simp
      · intro p hp; simp at hp; subst hp; simp; omega
      · intro n; constructor
        · intro hn; exact ⟨(num, max), by simp, hn.1, hn.2⟩
        · intro ⟨p, hp, h4, h5⟩; simp at hp; subst hp; exact ⟨h4, h5⟩
      · simp
    · push_neg at hdone
      have h2' : num + C ≤ max := le_of_lt hdone
      have h3' : max - (num + C) < f := by omega
      obtain ⟨ihHead, ihLast, ihChain, ihSize, ihBounds, ihCover, ihPw⟩ := ih (num + C) h2' h3'
      cases hcs : chunkGoRust C max f (num + C) with
      | nil => rw [hcs] at ihHead; simp at ihHead
      | cons a r =>
        rw [hcs] at ihHead ihLast ihChain ihSize ihBounds ihCover ihPw
        simp at ihHead
        have hne : max ≤ num + C → False := by omega
        simp only [chunkGoRust, if_neg (by omega : ¬ max ≤ num + C), hcs]
        refine ⟨rfl, ?_, ?_, ?_, ?_, ?_, ?_⟩
        · rw [List.getLast?_cons_cons]; exact ihLast
        · refine List.chain'_cons.mpr ⟨?_, ihChain⟩
          simp only [ihHead]; omega
        · intro p hp
          rw [List.dropLast_cons₂] at hp
          rcases List.mem_cons.mp hp with h | h
          · subst h; simp; omega
          · exact ihSize p h
        · intro p hp
          rcases List.mem_cons.mp hp with h | h
          · subst h
            refine ⟨le_refl _, by omega, by omega, by omega⟩
          · obtain ⟨hb1, hb2, hb3, hb4⟩ := ihBounds p h
            exact ⟨by omega, hb2, hb3, hb4⟩
        · intro n
          constructor
          · intro ⟨hn1, hn2⟩
            by_cases hsmall : n ≤ num + C - 1
            · exact ⟨(num, num + C - 1), List.mem_cons_self _ _, hn1, hsmall⟩
            · have : num + C ≤ n := by omega
              obtain ⟨p, hp, hc1, hc2⟩ := (ihCover n).mp ⟨this, hn2⟩
              exact ⟨p, List.mem_cons_of_mem _ hp, hc1, hc2⟩
          · intro ⟨p, hp, hc1, hc2⟩
            rcases List.mem_cons.mp hp with h | h
            · subst h; simp at hc1 hc2; omega
            · have := (ihCover n).mpr ⟨p, h, hc1, hc2⟩
              exact ⟨by omega, this.2⟩
        · refine List.pairwise_cons.mpr ⟨?_, ihPw⟩
          intro p hp
          obtain ⟨hb1, _, _, _⟩ := ihBounds p hp
          simp; omega

/-- C5 (amended): for `start ≤ stop` and `C ≥ 1`, `chunk_u64` splits
`[start, stop]` into contiguous, pairwise-disjoint, ascending inclusive
chunks whose union is exactly `[start, stop]`; every chunk except the last
has size exactly `C`, and the last chunk ends at `stop` and has size at most
`C + 1` (it is NOT truncated to size `≤ C`: when `stop` falls on
`start + k·C` the final chunk has `C + 1` blocks). -/
theorem chunk_u64_amended : ∀ base max C, base ≤ max → 1 ≤ C →
    (chunk_u64 base max C).head?.map Prod.fst = some base
    ∧ ((chunk_u64 base max C).getLast?).map Prod.snd = some max
    ∧ List.Chain' (fun a b => b.1 = a.2 + 1) (chunk_u64 base max C)
    ∧ (∀ p ∈ (chunk_u64 base max C).dropLast, p.2 + 1 = p.1 + C)
    ∧ (∀ p ∈ chunk_u64 base max C, base ≤ p.1 ∧ p.1 ≤ p.2 ∧ p.2 ≤ max ∧ p.2 ≤ p.1 + C)
    ∧ (∀ n, (base ≤ n ∧ n ≤ max) ↔ ∃ p ∈ chunk_u64 base max C, p.1 ≤ n ∧ n ≤ p.2)
    ∧ List.Pairwise (fun a b => a.2 < b.1) (chunk_u64 base max C) := by
  intro base max C h1 h2
  exact chunkGo_spec C max h2 (max + 1 - base) base h1 (by omega)

/-- C5 witness: the amended chunking theorem applied at `start = 2`,
`stop = 10`, `C = 3`. -/
theorem chunk_u64_amended_witness :
    (chunk_u64 2 10 3).head?.map Prod.fst = some 2
    ∧ chunk_u64 2 10 3 = [(2, 4), (5, 7), (8, 10)] :=
  ⟨(chunk_u64_amended 2 10 3 (by decide) (by decide)).1, by decide⟩

/-- The ERC-transfer half of the per-log body threads the ERC-1155 record of
the first half through unchanged. -/
theorem ercTransferStep_fst (bn : Nat) (l : LogM) (first o : Option ERC1155Transfer)
    (e : Option ERCTransfer) (h : ercTransferStep bn l first = .ok (o, e)) : o = first := by
  unfold ercTransferStep at h
  repeat' split at h
  all_goals simp_all

/-- An `ERC1155Transfer` record is produced for a log only when the walker's
counter is strictly above the ERC-1155 deploy height, and its `block` field is
the fetched block number. -/
theorem processLogTransfers_erc1155_gate (cb bn : Nat) (l : LogM)
    (t : ERC1155Transfer) (e : Option ERCTransfer)
    (h : processLogTransfers cb bn l = .ok (some t, e)) :
    ERC1155_DEPLOY_BLOCK < cb ∧ t.block = bn := by
  unfold processLogTransfers at h
  split at h
  · rename_i hc
    repeat' split at h
    · simp_all
    · simp_all
    · simp_all
    · rename_i ps hps
      have := ercTransferStep_fst _ _ _ _ _ h
      simp only [Option.some.injEq] at this
      exact ⟨hc.1, by rw [this]; rfl⟩
  · have := ercTransferStep_fst _ _ _ _ _ h
    simp at this

/-- Every `ERC1155Transfer` collected from a log list satisfies the height
gate, with `block` equal to the fetched block number. -/
theorem processLogs_erc1155_gate (args : Args) (cb bn : Nat) :
    ∀ (logs : List LogM) (l1 : List ERC1155Transfer) (l2 : List ERCTransfer),
      processLogs args cb bn logs = .ok (l1, l2) →
      ∀ r ∈ l1, ERC1155_DEPLOY_BLOCK < cb ∧ r.block = bn := by
  intro logs
  induction logs with
  | nil =>
    intro l1 l2 h r hr
    simp only [processLogs, Except.ok.injEq, Prod.mk.injEq] at h
    rw [← h.1] at hr
    simp at hr
  | cons l rest ih =>
    intro l1 l2 h r hr
    unfold processLogs at h
    split at h
    · split at h
      · simp_all
      · rename_i o1 e1 heq
        split at h
        · simp_all
        · rename_i ll1155 llerc heq2
          simp only [Except.ok.injEq, Prod.mk.injEq] at h
          rw [← h.1] at hr
          rcases List.mem_append.mp hr with hm | hm
          · cases ho : o1 with
            | none => rw [ho] at hm; simp at hm
            | some t =>
              rw [ho] at hm
              simp only [Option.toList_some, List.mem_singleton] at hm
              subst hm
              exact processLogTransfers_erc1155_gate cb bn l r e1 (ho ▸ heq)
          · exact ih ll1155 llerc heq2 r hm
    · exact ih l1 l2 h r hr

/-- C3: whenever the walker processes a transaction without panicking, (a)
every `ERC1155Transfer` it produces requires the walker's block counter to be
strictly above `ERC1155_DEPLOY_BLOCK = 16171588` and carries the fetched block
number (so, the fetched block being the requested one, no record exists with
`block ≤ 16171588`); (b) with the sales feature on, the produced sale is
exactly the `order_matched` (Marketplace V2 / OrderMatched) result when
`current_block > MARKETPLACE_V2_DEPLOY_BLOCK = 16027461` and exactly the
`legacy_erc_sale` (AuctionSuccessful) result otherwise — the V2 path is
selected precisely when the block exceeds the deploy height. -/
theorem height_gated_dispatch (args : Args) (cb bn ts : Nat) (tx : TxM) (out : TxOut)
    (h : processTx args cb bn ts tx = .ok out) :
    (∀ r ∈ out.erc1155s, ERC1155_DEPLOY_BLOCK < cb ∧ r.block = bn)
    ∧ (bn = cb → ∀ r ∈ out.erc1155s, ERC1155_DEPLOY_BLOCK < r.block)
    ∧ (args.feature_erc_721_sales = true → MARKETPLACE_V2_DEPLOY_BLOCK < cb →
        order_matched ts tx.receipt = .ok out.sale)
    ∧ (args.feature_erc_721_sales = true → cb ≤ MARKETPLACE_V2_DEPLOY_BLOCK →
        legacy_erc_sale ts tx.receipt = .ok out.sale)
    ∧ (args.feature_erc_721_sales = false → out.sale = none) := by
  unfold processTx at h
  split at h
  · exact absurd h (by simp)
  · rename_i sale hsale
    split at h
    · exact absurd h (by simp)
    · rename_i e1155 ercs hlogs
      cases h
      have hA : ∀ r ∈ e1155, ERC1155_DEPLOY_BLOCK < cb ∧ r.block = bn := by
        unfold logsStep at hlogs
        split at hlogs
        · intro r hr
          simp only [Except.ok.injEq, Prod.mk.injEq] at hlogs
          rw [← hlogs.1] at hr
          simp at hr
        · exact processLogs_erc1155_gate args cb bn tx.receipt.logs e1155 ercs hlogs
      refine ⟨hA, ?_, ?_, ?_, ?_⟩
      · intro hbn r hr
        obtain ⟨hg, hb⟩ := hA r hr
        rw [hb, hbn]
        exact hg
      · intro hf hcb
        unfold saleStep at hsale
        rw [hf] at hsale
        rw [if_pos rfl, if_pos hcb] at hsale
        exact hsale
      · intro hf hcb
        unfold saleStep at hsale
        rw [hf] at hsale
        rw [if_pos rfl, if_neg (by omega)] at hsale
        exact hsale
      · intro hf
        unfold saleStep at hsale
        rw [hf] at hsale
        rw [if_neg (by simp)] at hsale
        simp only [Except.ok.injEq] at hsale
        exact hsale.symm

/-- C3 witness: the dispatch theorem applied to a concrete transaction with an
empty receipt at block 100 (below the V2 deploy height) with only the sales
feature on: the walker's sale is the legacy decoder's result. -/
theorem height_gated_dispatch_witness :
    legacy_erc_sale 1 txPlain.receipt = .ok none :=
  (height_gated_dispatch argsSalesOnly 100 100 1 txPlain
      ⟨[], none, [], [], none⟩ (by rfl)).2.2.2.1 rfl (by decide)

/-- C7: for every receipt containing an AuctionSuccessful log (as found by the
legacy decoder) whose logs all have a Topic0, (i) if the receipt contains a
log with Topic0 equal to the ERC transfer topic whose address is a registry
ERC-721 contract other than WETH, and the first AuctionSuccessful log and the
first such transfer log decode under their schemas, then the emitted sale has
`seller = params[0]`, `buyer = params[1]`, `price = seller_received =
params[4]`, `token` = the transfer log's address and `token_id` = the
transfer's `params[2]`; (ii) if no such transfer log exists, no sale is
emitted. -/
theorem legacy_sale_fields (ts : Nat) (tx : ReceiptM) :
    (∀ sl tl psSale psTr,
      (tx.logs.filter (fun x =>
          x.topics.any (fun t => t == MARKETPLACE_AXIE_SALE_TOPIC))).head? = some sl →
      (∀ l ∈ tx.logs, l.topics ≠ []) →
      (tx.logs.filter legacyTransferPred).head? = some tl →
      parse_log auctionSuccessfulEvent sl.topics sl.data = some psSale →
      parse_log erc721Event tl.topics tl.data = some psTr →
      tx.block_number ≠ none →
      legacy_erc_sale ts tx = .ok (some
        { seller := "0x" ++ tokenToString (psSale.getD 0 defaultToken)
          buyer := "0x" ++ tokenToString (psSale.getD 1 defaultToken)
          price := tokenToString (psSale.getD 4 defaultToken)
          seller_received := tokenToString (psSale.getD 4 defaultToken)
          token := toStringAddr tl.address
          token_id := tokenToString (psTr.getD 2 defaultToken)
          transaction_id := toStringWord tx.transaction_hash
          created_at := ts * 1000 }))
    ∧ ((tx.logs.filter legacyTransferPred).head? = none →
        ∀ s, legacy_erc_sale ts tx ≠ .ok (some s)) := by
  constructor
  · intro sl tl psSale psTr hsl hne htl hp1 hp2 hbn
    have hlogsne : ¬ tx.logs.isEmpty = true := by
      intro hnil
      rw [List.isEmpty_iff] at hnil
      rw [hnil] at hsl
      simp at hsl
    unfold legacy_erc_sale
    rw [if_neg hlogsne]
    obtain ⟨rest1, hrest1⟩ : ∃ r,
        tx.logs.filter (fun x =>
          x.topics.any (fun t => t == MARKETPLACE_AXIE_SALE_TOPIC)) = sl :: r := by
      cases hfl : tx.logs.filter (fun x =>
          x.topics.any (fun t => t == MARKETPLACE_AXIE_SALE_TOPIC)) with
      | nil => rw [hfl] at hsl; simp at hsl
      | cons a r =>
        rw [hfl] at hsl
        simp only [List.head?_cons, Option.some.injEq] at hsl
        exact ⟨r, by rw [hsl]⟩
    rw [hrest1]
    dsimp only
    have hanyne : ¬ (tx.logs.any (fun l => l.topics.isEmpty)) = true := by
      intro hx
      obtain ⟨l, hl, hemp⟩ := List.any_eq_true.mp hx
      exact hne l hl (List.isEmpty_iff.mp hemp)
    rw [if_neg hanyne]
    obtain ⟨rest2, hrest2⟩ : ∃ r, tx.logs.filter legacyTransferPred = tl :: r := by
      cases hfl : tx.logs.filter legacyTransferPred with
      | nil => rw [hfl] at htl; simp at htl
      | cons a r =>
        rw [hfl] at htl
        simp only [List.head?_cons, Option.some.injEq] at htl
        exact ⟨r, by rw [htl]⟩
    rw [hrest2]
    dsimp only
    rw [hp1]
    dsimp only
    rw [hp2]
    dsimp only
    cases hb : tx.block_number with
    | none => exact absurd hb hbn
    | some bnum => rfl
  · intro h0 s hcontra
    have h0f : tx.logs.filter legacyTransferPred = [] := by
      cases hfl : tx.logs.filter legacyTransferPred with
      | nil => rfl
      | cons a r => rw [hfl] at h0; simp at h0
    unfold legacy_erc_sale at hcontra
    split at hcontra
    · simp at hcontra
    · split at hcontra
      · simp at hcontra
      · split at hcontra
        · simp at hcontra
        · rw [h0f] at hcontra
          simp at hcontra

/-- C7 witness: the legacy-sale theorem applied to a concrete receipt holding
an AuctionSuccessful log (seller `0xa`, buyer `0xb`, total price 500) and an
AXIE ERC-721 transfer of token 99; and, without the transfer log, no sale. -/
theorem legacy_sale_fields_witness :
    legacy_erc_sale 1650000000 receiptLegacy = .ok (some saleLegacy)
    ∧ legacy_erc_sale 1650000000 receiptLegacyNoTransfer ≠ .ok (some saleLegacy) :=
  ⟨by
    have h := (legacy_sale_fields 1650000000 receiptLegacy).1 saleLogLegacy
      transferLogLegacy psAuction psLegacyTransfer (by rfl) (by decide) (by rfl)
      (by rfl) (by rfl) (by decide)
    have heq : ({ seller := "0x" ++ tokenToString (psAuction.getD 0 defaultToken)
                  buyer := "0x" ++ tokenToString (psAuction.getD 1 defaultToken)
                  price := tokenToString (psAuction.getD 4 defaultToken)
                  seller_received := tokenToString (psAuction.getD 4 defaultToken)
                  token := toStringAddr transferLogLegacy.address
                  token_id := tokenToString (psLegacyTransfer.getD 2 defaultToken)
                  transaction_id := toStringWord receiptLegacy.transaction_hash
                  created_at := 1650000000 * 1000 } : Sale) = saleLegacy := by decide
    rw [heq] at h
    exact h,
   (legacy_sale_fields 1650000000 receiptLegacyNoTransfer).2 (by rfl) saleLegacy⟩

/-- Anatomy of a successful ERC transfer decode: it requires the transfer
topic somewhere in the log's topics, a registry hit, and a schema-conformant
parse, and the record is `mkERCTransfer` of the decoded parameters. -/
theorem ercTransferStep_some (bn : Nat) (l : LogM) (first o : Option ERC1155Transfer)
    (t : ERCTransfer) (h : ercTransferStep bn l first = .ok (o, some t)) :
    l.topics.any (fun x => x == ERC_TRANSFER_TOPIC) = true
    ∧ ∃ c ev ps, contractGet l.address = some c ∧ transfer_events c.erc = some ev
        ∧ parse_log ev l.topics l.data = some ps ∧ t = mkERCTransfer bn l c.erc ps := by
  unfold ercTransferStep at h
  split at h
  · rename_i htop
    split at h
    · simp at h
    · rename_i c hc
      split at h
      · simp at h
      · rename_i ev hev
        split at h
        · simp at h
        · rename_i ps hps
          simp only [Except.ok.injEq, Prod.mk.injEq, Option.some.injEq] at h
          exact ⟨htop, c, ev, ps, hc, hev, hps, h.2.symm⟩
  · simp at h

/-- C8 (amended): an `ERCTransfer` record is produced for a log exactly when
some topic equals the ERC transfer topic, the log's address is in the
registry, and the log parses under the registry category's schema (which
forces Topic0 to be that schema's signature — the TransferSingle topic, not
the ERC transfer topic, for a contract registered as ERC-1155), provided the
ERC-1155 branch does not intercept the log; the record's `erc` field is the
registry entry's category and `value_or_token_id` is the third decoded
parameter. -/
theorem erc_transfer_dispatch (cb bn : Nat) (l : LogM) :
    (∀ o t, processLogTransfers cb bn l = .ok (o, some t) →
      l.topics.any (fun x => x == ERC_TRANSFER_TOPIC) = true
      ∧ ∃ c ev ps, contractGet l.address = some c ∧ transfer_events c.erc = some ev
          ∧ parse_log ev l.topics l.data = some ps
          ∧ t = mkERCTransfer bn l c.erc ps
          ∧ t.erc = c.erc
          ∧ t.token = toStringAddr l.address
          ∧ t.value_or_token_id = tokenToString (ps.getD 2 defaultToken)
          ∧ t.block = bn)
    ∧ (∀ c ev ps, l.topics.any (fun x => x == ERC_TRANSFER_TOPIC) = true →
        contractGet l.address = some c →
        transfer_events c.erc = some ev →
        parse_log ev l.topics l.data = some ps →
        l.topics.any (fun x => x == ERC1155_TRANSFER_SINGLE_TOPIC) = false →
        processLogTransfers cb bn l = .ok (none, some (mkERCTransfer bn l c.erc ps))) := by
  constructor
  · intro o t h
    have hstep : ∃ first, ercTransferStep bn l first = .ok (o, some t) := by
      unfold processLogTransfers at h
      split at h
      · split at h
        · simp at h
        · split at h
          · simp at h
          · split at h
            · simp at h
            · exact ⟨_, h⟩
      · exact ⟨_, h⟩
    obtain ⟨first, hstep⟩ := hstep
    obtain ⟨htop, c, ev, ps, hc, hev, hps, ht⟩ := ercTransferStep_some bn l first o t hstep
    exact ⟨htop, c, ev, ps, hc, hev, hps, ht, by rw [ht]; rfl, by rw [ht]; rfl, by rw [ht]; rfl, by rw [ht]; rfl⟩
  · intro c ev ps htop hc hev hps h1155
    unfold processLogTransfers
    rw [if_neg (by simp [h1155])]
    unfold ercTransferStep
    rw [if_pos htop, hc]
    dsimp only
    rw [hev]
    dsimp only
    rw [hps]

/-- C8 amended-theorem witness: a well-formed WETH ERC-20 Transfer log at
block 20000000 produces exactly the ERC-20 record of its decoded
parameters. -/
theorem erc_transfer_dispatch_witness :
    processLogTransfers 20000000 20000000 logWeth
      = .ok (none, some (mkERCTransfer 20000000 logWeth ContractType.ERC20 psWeth)) := by
  have h := (erc_transfer_dispatch 20000000 20000000 logWeth).2 wethContract erc20Event
    psWeth (by decide) (by rfl) (by rfl) (by decide) (by decide)
  exact h

/-- The block loop body never drops a collection. -/
theorem processBlockEffects_no_drop (args : Args) (cb : Nat) (largest : LargestBlock)
    (bd : BlockData) (effs : List Effect) (l2 : LargestBlock)
    (h : processBlockEffects args cb largest bd = .ok (effs, l2)) :
    ∀ s, Effect.dropColl s ∉ effs := by
  intro s hmem
  unfold processBlockEffects at h
  dsimp only at h
  by_cases hn : 0 < bd.transactions.length
  · rw [if_pos hn] at h
    split at h
    · simp at h
    · repeat' split at h
      all_goals
        simp only [Except.ok.injEq, Prod.mk.injEq] at h
      all_goals
        rw [← h.1] at hmem
      all_goals simp at hmem
  · rw [if_neg hn] at h
    simp only [Except.ok.injEq, Prod.mk.injEq] at h
    rw [← h.1] at hmem
    revert hmem
    split <;> simp

/-- The whole block loop never drops a collection. -/
theorem streamLoop_no_drop (args : Args) :
    ∀ (blocks : List BlockData) (cb : Nat) (largest : LargestBlock) (effs : List Effect),
      streamLoop args cb largest blocks = .ok effs → ∀ s, Effect.dropColl s ∉ effs := by
  intro blocks
  induction blocks with
  | nil =>
    intro cb largest effs h s hmem
    simp only [streamLoop, Except.ok.injEq] at h
    rw [← h] at hmem
    simp at hmem
  | cons bd rest ih =>
    intro cb largest effs h s hmem
    unfold streamLoop at h
    split at h
    · simp at h
    · rename_i bes bl2 hblock
      split at h
      · simp at h
      · rename_i more hmore
        simp only [Except.ok.injEq] at h
        rw [← h] at hmem
        rcases List.mem_append.mp hmem with hm | hm
        · exact processBlockEffects_no_drop args cb largest bd bes bl2 hblock s hm
        · exact ih (cb + 1) bl2 more hmore s hm

/-- C10: in every replay run, before any block is processed the walker sleeps
15 seconds and then drops exactly the five collections `settings`, `wallets`,
`transactions`, `erc_transfers`, `erc1155_transfers` (in that order) and
re-runs the index bootstrap; no other effect of the run drops a collection,
and in particular `erc721_sales` is never dropped, so stored Sale records
survive a replay. -/
theorem replay_drops_five_collections_not_sales (args : Args) (start stop : Nat)
    (largest0 : LargestBlock) (blocks : List BlockData) (effs : List Effect)
    (hreplay : args.replay = true)
    (hok : stream args start stop largest0 blocks = .ok effs) :
    streamPreamble args = (if args.debug then [Effect.sleepSec 1] else []) ++
      [Effect.sleepSec 15, Effect.dropColl "settings", Effect.dropColl "wallets",
       Effect.dropColl "transactions", Effect.dropColl "erc_transfers",
       Effect.dropColl "erc1155_transfers", Effect.createIndexes]
    ∧ (∃ rest, effs = streamPreamble args ++ rest ∧ ∀ s, Effect.dropColl s ∉ rest)
    ∧ Effect.dropColl "erc721_sales" ∉ effs := by
  have hpre : streamPreamble args = (if args.debug then [Effect.sleepSec 1] else []) ++
      [Effect.sleepSec 15, Effect.dropColl "settings", Effect.dropColl "wallets",
       Effect.dropColl "transactions", Effect.dropColl "erc_transfers",
       Effect.dropColl "erc1155_transfers", Effect.createIndexes] := by
    unfold streamPreamble
    rw [hreplay]
    rfl
  have hprenosale : Effect.dropColl "erc721_sales" ∉ streamPreamble args := by
    rw [hpre]
    intro hmem
    rcases List.mem_append.mp hmem with hm | hm
    · split at hm <;> simp_all
    · simp at hm
  unfold stream at hok
  split at hok
  · simp only [Except.ok.injEq] at hok
    subst hok
    exact ⟨hpre, ⟨[], by simp, by simp⟩, hprenosale⟩
  · split at hok
    · simp at hok
    · rename_i les hles
      simp only [Except.ok.injEq] at hok
      subst hok
      refine ⟨hpre, ⟨les, rfl, fun s => streamLoop_no_drop args blocks start largest0 les hles s⟩, ?_⟩
      intro hmem
      rcases List.mem_append.mp hmem with hm | hm
      · exact hprenosale hm
      · exact streamLoop_no_drop args blocks start largest0 les hles _ hm

/-- C10 witness: the replay theorem applied to a replay run over an empty
range with default flags. -/
theorem replay_drops_witness :
    Effect.dropColl "erc721_sales" ∉
      ([Effect.sleepSec 15, Effect.dropColl "settings", Effect.dropColl "wallets",
        Effect.dropColl "transactions", Effect.dropColl "erc_transfers",
        Effect.dropColl "erc1155_transfers", Effect.createIndexes] : List Effect) :=
  (replay_drops_five_collections_not_sales argsReplay 1 0 ⟨0, 0⟩ []
      [Effect.sleepSec 15, Effect.dropColl "settings", Effect.dropColl "wallets",
       Effect.dropColl "transactions", Effect.dropColl "erc_transfers",
       Effect.dropColl "erc1155_transfers", Effect.createIndexes]
      rfl (by decide)).2.2
